import Mathlib

/-!
Verification of the failure-decision engine in `src/fallible-core/src/lib.rs`
(the `fallibles` repository): the configuration model (`FailureConfig`), the
decision algorithm (`should_trigger`, `check_and_trigger`), the global and
thread-local configuration slots (`should_simulate_failure`,
`configure_failures`, `with_config`, guards) and the statistics accessors.

Machine integers are modelled as `Nat` with explicit reduction modulo `2^32`
(`u32`) or `2^64` (`u64`) where the Rust code wraps.  The per-config atomic
counters are modelled by explicit state passing: each operation returns the
updated `FailureConfig` next to its result.  The run-time entropy consumed by
the unseeded probabilistic branch (clock nanoseconds, a thread-identity hash,
a stack address) is an explicit input of every evaluation.
-/

namespace Fallible

/-- The range of `u32`. -/
def w32 : Nat := 2 ^ 32

/-- The range of `u64`. -/
def w64 : Nat := 2 ^ 64

/-! ### The fxhash digests

`should_trigger` (lib.rs:423-424) calls `fxhash::hash32` and `fxhash::hash64`
on a 12-byte array `bytes = fp_id.0.to_le_bytes() ++ counter.to_le_bytes()`.
These definitions embed the algorithm of the fxhash crate for that call, on a
64-bit little-endian target: hashing a `[u8; 12]` through `Hash` first feeds
the array length (`write_usize(12)`) and then the 12 bytes; `FxHasher32`
consumes them as 32-bit words and `FxHasher64` as a 64-bit word followed by a
32-bit word, each step being `h := (h.rotate_left(5) ^ word) * SEED`. -/

/-- The 64-bit fxhash multiplier `0x51_7c_c1_b7_27_22_0a_95`; the same constant
multiplies the user seed in lib.rs:429. -/
def SEED64 : Nat := 0x517cc1b727220a95

/-- The 32-bit fxhash multiplier: the low 32 bits of `SEED64`. -/
def SEED32 : Nat := 0x27220a95

/-- `u32::rotate_left`. -/
def rotl32 (x n : Nat) : Nat :=
  (((x % w32) <<< n) % w32) ||| ((x % w32) >>> (32 - n))

/-- `u64::rotate_left`. -/
def rotl64 (x n : Nat) : Nat :=
  (((x % w64) <<< n) % w64) ||| ((x % w64) >>> (64 - n))

/-- One 32-bit fxhash step: `h = (h.rotate_left(5) ^ word).wrapping_mul(SEED32)`. -/
def hashWord32 (h w : Nat) : Nat := ((rotl32 h 5) ^^^ (w % w32)) * SEED32 % w32

/-- One 64-bit fxhash step: `h = (h.rotate_left(5) ^ word).wrapping_mul(SEED64)`. -/
def hashWord64 (h w : Nat) : Nat := ((rotl64 h 5) ^^^ (w % w64)) * SEED64 % w64

/-- `fxhash::hash32(&bytes)` for the 12-byte input of lib.rs:419-423: the
hasher starts at 0, absorbs the length prefix 12 (as a `u64`, i.e. two 32-bit
words `12` and `0`), then the three little-endian 32-bit chunks of the array:
the id, the low half of the counter, the high half of the counter. -/
def fxhash32of12 (fpId counter : Nat) : Nat :=
  let h := hashWord32 (hashWord32 0 12) 0
  let h := hashWord32 h (fpId % w32)
  let h := hashWord32 h (counter % w32)
  let h := hashWord32 h (counter / w32 % w32)
  h

/-- `fxhash::hash64(&bytes)` for the same 12-byte input: the hasher starts at
0, absorbs the length prefix 12 as one 64-bit word, then the first 8 bytes as
a little-endian `u64` (id in the low half, low counter half above it), then
the remaining 4 bytes as a 32-bit word (the high counter half). -/
def fxhash64of12 (fpId counter : Nat) : Nat :=
  let h := hashWord64 0 12
  let h := hashWord64 h ((fpId % w32) + (counter % w32) * w32)
  let h := hashWord64 h (counter / w32 % w32)
  h

/-- The avalanche finalizer of lib.rs:445-449: three xor-shift-33 rounds
interleaved with wrapping multiplications by `0xff51afd7ed558ccd` and
`0xc4ceb9fe1a85ec53`. -/
def fmix64 (x : Nat) : Nat :=
  let x := x ^^^ (x >>> 33)
  let x := x * 0xff51afd7ed558ccd % w64
  let x := x ^^^ (x >>> 33)
  let x := x * 0xc4ceb9fe1a85ec53 % w64
  let x := x ^^^ (x >>> 33)
  x

/-! ### Data model -/

/-- `FailurePointId` (lib.rs:99): a `u32` newtype identifying a call site. -/
structure FailurePointId where
  val : Nat
deriving DecidableEq

/-- `FailurePoint` (lib.rs:105-112): call-site metadata handed to every
decision and callback. -/
structure FailurePoint where
  id : FailurePointId
  function : String
  file : String
  line : Nat
  column : Nat

/-- `FailureStats` (lib.rs:150-155): the statistics snapshot. -/
structure FailureStats where
  total_checks : Nat
  total_failures : Nat
deriving DecidableEq

/-- `FailureConfig` (lib.rs:178-188).  The two `AtomicU64` counters are plain
`Nat` fields (always kept below `2^64`); the callbacks are side-effect-only
and modelled as optional `FailurePoint → Unit` functions; the predicate is an
optional `Unit → Bool` closure. -/
structure FailureConfig where
  enabled_points : List FailurePointId
  probability : Nat
  counter : Nat
  trigger_every : Nat
  on_check : Option (FailurePoint → Unit)
  on_failure : Option (FailurePoint → Unit)
  failures_triggered : Nat
  seed : Nat
  predicate : Option (Unit → Bool)

/-- `FailureConfig::new` (lib.rs:194-206): everything disabled. -/
def FailureConfig.new : FailureConfig :=
  { enabled_points := []
    probability := 0
    counter := 0
    trigger_every := 0
    on_check := none
    on_failure := none
    failures_triggered := 0
    seed := 0
    predicate := none }

/-- `FailureConfig::enable_all` (lib.rs:249-261): probability `u32::MAX`,
empty allow-list. -/
def FailureConfig.enable_all : FailureConfig :=
  { enabled_points := []
    probability := w32 - 1
    counter := 0
    trigger_every := 0
    on_check := none
    on_failure := none
    failures_triggered := 0
    seed := 0
    predicate := none }

/-- `FailureConfig::enable_point` (lib.rs:266-269): push onto the allow-list. -/
def FailureConfig.enable_point (c : FailureConfig) (id : FailurePointId) : FailureConfig :=
  { c with enabled_points := c.enabled_points ++ [id] }

/-- `FailureConfig::with_probability` (lib.rs:280-283) computes
`(prob * u32::MAX as f64) as u32`.  The floating-point product is modelled
only at the argument `1.0`, where the `f64` arithmetic is exact:
`1.0 * 4294967295.0 = 4294967295.0`, and the saturating cast yields
`u32::MAX = 2^32 - 1`. -/
def FailureConfig.with_probability_one (c : FailureConfig) : FailureConfig :=
  { c with probability := w32 - 1 }

/-- `FailureConfig::with_seed` (lib.rs:308-311). -/
def FailureConfig.with_seed (c : FailureConfig) (s : Nat) : FailureConfig :=
  { c with seed := s }

/-- `FailureConfig::when` (lib.rs:342-348): install the gating predicate. -/
def FailureConfig.when (c : FailureConfig) (p : Unit → Bool) : FailureConfig :=
  { c with predicate := some p }

/-- `FailureConfig::stats` (lib.rs:394-399): snapshot of the two counters. -/
def FailureConfig.stats (c : FailureConfig) : FailureStats :=
  { total_checks := c.counter, total_failures := c.failures_triggered }

/-- `u64::is_multiple_of` as used at lib.rs:414: `count.is_multiple_of(n)` is
`count % n == 0` for `n > 0`, and `count == 0` for `n = 0`. -/
def is_multiple_of (count n : Nat) : Bool :=
  if n == 0 then count == 0 else count % n == 0

/-- The run-time entropy the unseeded probabilistic branch reads
(lib.rs:431-442): the current time in nanoseconds, the fxhash of the thread
id debug string, and the address of a stack slot.  All three are free
inputs of an evaluation. -/
structure Entropy where
  nanos : Nat
  thread_hash : Nat
  stack_addr : Nat

/-- The entropy perturbation of lib.rs:441:
`nanos.wrapping_add(stack_addr).wrapping_mul(thread_hash)`. -/
def Entropy.mix (e : Entropy) : Nat :=
  (e.nanos % w64 + e.stack_addr % w64) % w64 * (e.thread_hash % w64) % w64

/-- The 32-bit value the probabilistic branch compares against the threshold
(lib.rs:419-451): the high 32 bits of the avalanche-mixed combination of the
two fxhash digests of `(id, counter)` with the seed perturbation
(`seed.wrapping_mul(0x517cc1b727220a95)` when `seed != 0`) or the run-time
entropy (when `seed == 0`). -/
def mixed_high (c : FailureConfig) (fp_id : FailurePointId) (e : Entropy) : Nat :=
  let hash1 := fxhash32of12 fp_id.val c.counter
  let hash2 := fxhash64of12 fp_id.val c.counter
  let combined := hash1 ^^^ hash2
  let combined :=
    if c.seed != 0 then combined ^^^ (c.seed * SEED64 % w64)
    else combined ^^^ e.mix
  fmix64 combined / w32

/-- `FailureConfig::should_trigger` (lib.rs:401-456).  The verdict is paired
with the updated configuration (the atomic `fetch_add` on the call counter
becomes a functional update, wrapping at `2^64`).  Branches in source order:
the gating predicate, the allow-list, periodic mode, probabilistic mode,
default false. -/
def should_trigger (c : FailureConfig) (fp_id : FailurePointId) (e : Entropy) :
    Bool × FailureConfig :=
  if c.predicate.elim false (fun p => !(p ())) then (false, c)
  else if !c.enabled_points.isEmpty && !(c.enabled_points.contains fp_id) then (false, c)
  else if 0 < c.trigger_every then
    (is_multiple_of c.counter c.trigger_every, { c with counter := (c.counter + 1) % w64 })
  else if 0 < c.probability then
    (decide (mixed_high c fp_id e < c.probability), { c with counter := (c.counter + 1) % w64 })
  else (false, c)

/-- `check_and_trigger` (lib.rs:639-654): fire `on_check`, run
`should_trigger`, and on a true verdict bump the failure counter and fire
`on_failure`. -/
def check_and_trigger (c : FailureConfig) (fp : FailurePoint) (e : Entropy) :
    Bool × FailureConfig :=
  let _on_check_fired : Option Unit := c.on_check.map fun cb => cb fp
  let r := should_trigger c fp.id e
  if r.1 then
    let c2 : FailureConfig :=
      { r.2 with failures_triggered := (r.2.failures_triggered + 1) % w64 }
    let _on_failure_fired : Option Unit := c2.on_failure.map fun cb => cb fp
    (r.1, c2)
  else r

/-! ### State manager -/

/-- The two configuration slots: `THREAD_CONFIG_PTR` for the current thread
(lib.rs:133-135) and the global `CONFIG_PTR` (lib.rs:127).  A null pointer is
`none`. -/
structure GlobalState where
  thread_config : Option FailureConfig
  global_config : Option FailureConfig

/-- `configure_failures` (lib.rs:490-497): swap the global slot (the old
occupant is dropped). -/
def configure_failures (s : GlobalState) (c : FailureConfig) : GlobalState :=
  { s with global_config := some c }

/-- `clear_failure_config` (lib.rs:502-509). -/
def clear_failure_config (s : GlobalState) : GlobalState :=
  { s with global_config := none }

/-- `configure_thread_failures` (lib.rs:527-536). -/
def configure_thread_failures (s : GlobalState) (c : FailureConfig) : GlobalState :=
  { s with thread_config := some c }

/-- `clear_thread_failure_config` (lib.rs:542-551). -/
def clear_thread_failure_config (s : GlobalState) : GlobalState :=
  { s with thread_config := none }

/-- `FailureConfigGuard` (lib.rs:557-560): remembers which slot it guards. -/
structure FailureConfigGuard where
  was_global : Bool

/-- `Drop for FailureConfigGuard` (lib.rs:563-571).  Rust runs this exactly
once when the guard leaves scope, on normal exit and on unwind alike; the
drop body itself is this slot-clearing state transition. -/
def FailureConfigGuard.drop (g : FailureConfigGuard) (s : GlobalState) : GlobalState :=
  if g.was_global then clear_failure_config s else clear_thread_failure_config s

/-- `with_config` (lib.rs:587-590): install globally, return a global guard. -/
def with_config (s : GlobalState) (c : FailureConfig) : FailureConfigGuard × GlobalState :=
  (⟨true⟩, configure_failures s c)

/-- `with_thread_config` (lib.rs:607-610). -/
def with_thread_config (s : GlobalState) (c : FailureConfig) :
    FailureConfigGuard × GlobalState :=
  (⟨false⟩, configure_thread_failures s c)

/-- `should_simulate_failure` (lib.rs:616-637): consult the thread-local slot
first; if it is empty fall back to the global slot; if both are empty return
false.  The configuration of the evaluated slot is updated in place. -/
def should_simulate_failure (s : GlobalState) (fp : FailurePoint) (e : Entropy) :
    Bool × GlobalState :=
  match s.thread_config with
  | some c =>
    ((check_and_trigger c fp e).1,
     { s with thread_config := some (check_and_trigger c fp e).2 })
  | none =>
    match s.global_config with
    | none => (false, s)
    | some c =>
      ((check_and_trigger c fp e).1,
       { s with global_config := some (check_and_trigger c fp e).2 })

/-- `get_failure_stats` (lib.rs:671-692): stats of the thread-local config if
one is installed, else of the global config, else `none`. -/
def get_failure_stats (s : GlobalState) : Option FailureStats :=
  match s.thread_config with
  | some c => some c.stats
  | none =>
    match s.global_config with
    | none => none
    | some c => some c.stats

/-! ### Runs

A run evaluates the engine once per listed call, threading the configuration
(counter) state; each call supplies a call-site identity and the
run-time entropy of that instant. -/

/-- Verdict sequence of a run of `should_trigger`. -/
def runSeq (c : FailureConfig) : List (FailurePointId × Entropy) → List Bool
  | [] => []
  | call :: rest =>
    (should_trigger c call.1 call.2).1 ::
      runSeq (should_trigger c call.1 call.2).2 rest

/-- Verdict sequence and final configuration of a run of `check_and_trigger`. -/
def runCheck (c : FailureConfig) : List (FailurePoint × Entropy) → List Bool × FailureConfig
  | [] => ([], c)
  | call :: rest =>
    ((check_and_trigger c call.1 call.2).1 ::
       (runCheck (check_and_trigger c call.1 call.2).2 rest).1,
     (runCheck (check_and_trigger c call.1 call.2).2 rest).2)

/-! ### Helper lemmas about the decision engine -/

/-- A predicate that is absent or evaluates true does not block. -/
theorem gate_pred_passes (c : FailureConfig)
    (hpred : ∀ p, c.predicate = some p → p () = true) :
    c.predicate.elim false (fun p => !(p ())) = false := by
  cases hp : c.predicate with
  | none => rfl
  | some p => simp [Option.elim, hpred p hp]

/-- An empty allow-list, or one containing the id, does not block. -/
theorem gate_allow_passes (c : FailureConfig) (fp_id : FailurePointId)
    (hallow : c.enabled_points = [] ∨ c.enabled_points.contains fp_id = true) :
    (!c.enabled_points.isEmpty && !(c.enabled_points.contains fp_id)) = false := by
  rcases hallow with h | h
  · simp [h]
  · rw [h]; simp

/-- With both gates passing and `trigger_every > 0`, `should_trigger` takes
the periodic branch: the verdict is divisibility of the pre-increment counter
and the counter advances by one. -/
theorem should_trigger_periodic (c : FailureConfig) (fp_id : FailurePointId) (e : Entropy)
    (hpred : ∀ p, c.predicate = some p → p () = true)
    (hallow : c.enabled_points = [] ∨ c.enabled_points.contains fp_id = true)
    (htr : 0 < c.trigger_every) :
    should_trigger c fp_id e =
      (is_multiple_of c.counter c.trigger_every,
       { c with counter := (c.counter + 1) % w64 }) := by
  unfold should_trigger
  rw [gate_pred_passes c hpred, gate_allow_passes c fp_id hallow]
  simp [htr]

/-- With both gates passing, `trigger_every = 0` and `probability > 0`,
`should_trigger` takes the probabilistic branch: the verdict compares the
mixed hash against the threshold and the counter advances by one. -/
theorem should_trigger_prob (c : FailureConfig) (fp_id : FailurePointId) (e : Entropy)
    (hpred : ∀ p, c.predicate = some p → p () = true)
    (hallow : c.enabled_points = [] ∨ c.enabled_points.contains fp_id = true)
    (htr : c.trigger_every = 0) (hp : 0 < c.probability) :
    should_trigger c fp_id e =
      (decide (mixed_high c fp_id e < c.probability),
       { c with counter := (c.counter + 1) % w64 }) := by
  unfold should_trigger
  rw [gate_pred_passes c hpred, gate_allow_passes c fp_id hallow]
  simp [htr, hp]

/-- `u64::is_multiple_of` with a positive modulus is divisibility. -/
theorem is_multiple_of_pos (count n : Nat) (hn : 0 < n) :
    is_multiple_of count n = decide (count % n = 0) := by
  unfold is_multiple_of
  rw [if_neg (by simpa using Nat.pos_iff_ne_zero.mp hn)]
  cases h : count % n == 0 with
  | false => simp only [beq_eq_false_iff_ne, ne_eq] at h; simp [h]
  | true => simp only [beq_iff_eq] at h; simp [h]

/-- Right shift does not increase a natural number. -/
theorem shiftRight_le_self (n k : Nat) : n >>> k ≤ n := by
  rw [Nat.shiftRight_eq_div_pow]
  exact Nat.div_le_self _ _

/-- The avalanche finalizer stays below `2^64`. -/
theorem fmix64_lt (x : Nat) : fmix64 x < w64 := by
  unfold fmix64 w64
  refine Nat.xor_lt_two_pow (Nat.mod_lt _ (by norm_num)) ?_
  exact Nat.lt_of_le_of_lt (shiftRight_le_self _ _) (Nat.mod_lt _ (by norm_num))

/-- The compared hash value is a 32-bit quantity. -/
theorem mixed_high_lt (c : FailureConfig) (fp_id : FailurePointId) (e : Entropy) :
    mixed_high c fp_id e < w32 := by
  unfold mixed_high
  have h := fmix64_lt ((if c.seed != 0 then
      (fxhash32of12 fp_id.val c.counter ^^^ fxhash64of12 fp_id.val c.counter)
        ^^^ (c.seed * SEED64 % w64)
    else (fxhash32of12 fp_id.val c.counter ^^^ fxhash64of12 fp_id.val c.counter)
        ^^^ e.mix))
  have hw : w64 = w32 * w32 := by norm_num [w32, w64]
  exact Nat.div_lt_of_lt_mul (by rw [← hw]; exact h)

/-- With a non-zero seed the mixed hash does not read the entropy. -/
theorem mixed_high_entropy_free (c : FailureConfig) (fp_id : FailurePointId)
    (e1 e2 : Entropy) (hseed : c.seed ≠ 0) :
    mixed_high c fp_id e1 = mixed_high c fp_id e2 := by
  unfold mixed_high
  simp [hseed]

/-- With a non-zero seed the whole evaluation does not read the entropy. -/
theorem should_trigger_entropy_free (c : FailureConfig) (fp_id : FailurePointId)
    (e1 e2 : Entropy) (hseed : c.seed ≠ 0) :
    should_trigger c fp_id e1 = should_trigger c fp_id e2 := by
  unfold should_trigger
  rw [mixed_high_entropy_free c fp_id e1 e2 hseed]

/-- `should_trigger` never changes the seed (only the counter moves). -/
theorem should_trigger_seed (c : FailureConfig) (fp_id : FailurePointId) (e : Entropy) :
    (should_trigger c fp_id e).2.seed = c.seed := by
  unfold should_trigger
  repeat' split
  all_goals rfl

/-- A blocked gate short-circuits `should_trigger` to `(false, c)`. -/
theorem should_trigger_gate_stopped (c : FailureConfig) (fp_id : FailurePointId)
    (e : Entropy)
    (hgate : (∃ p, c.predicate = some p ∧ p () = false) ∨
             (c.enabled_points ≠ [] ∧ c.enabled_points.contains fp_id = false)) :
    should_trigger c fp_id e = (false, c) := by
  unfold should_trigger
  rcases hgate with ⟨p, hp, hfalse⟩ | ⟨hne, hnc⟩
  · rw [if_pos]
    rw [hp]
    simp [Option.elim, hfalse]
  · by_cases h1 : c.predicate.elim false (fun p => !(p ())) = true
    · rw [if_pos h1]
    · rw [if_neg h1, if_pos]
      rw [hnc]
      simp [List.isEmpty_iff, hne]

/-- With both gates open and a positive probability, `should_trigger` always
advances the counter by exactly one, whichever of the periodic or
probabilistic branches runs. -/
theorem should_trigger_counts (c : FailureConfig) (fp_id : FailurePointId) (e : Entropy)
    (hpred : c.predicate = none) (hallow : c.enabled_points = [])
    (hprob : 0 < c.probability) :
    should_trigger c fp_id e =
      ((should_trigger c fp_id e).1, { c with counter := (c.counter + 1) % w64 }) := by
  by_cases htr : 0 < c.trigger_every
  · rw [should_trigger_periodic c fp_id e (by simp [hpred]) (Or.inl hallow) htr]
  · rw [should_trigger_prob c fp_id e (by simp [hpred]) (Or.inl hallow) (by omega) hprob]

/-- One step of `check_and_trigger` with both gates open and a positive
probability: the call counter advances by one and the failures counter
advances exactly on a true verdict. -/
theorem check_and_trigger_counts (c : FailureConfig) (fp : FailurePoint) (e : Entropy)
    (hpred : c.predicate = none) (hallow : c.enabled_points = [])
    (hprob : 0 < c.probability) :
    ∃ b, check_and_trigger c fp e =
      (b, { c with
              counter := (c.counter + 1) % w64,
              failures_triggered :=
                if b then (c.failures_triggered + 1) % w64
                else c.failures_triggered }) := by
  obtain ⟨b, c', hst⟩ : ∃ b c', should_trigger c fp.id e = (b, c') := ⟨_, _, rfl⟩
  have hc' : c' = { c with counter := (c.counter + 1) % w64 } := by
    have h := should_trigger_counts c fp.id e hpred hallow hprob
    rw [hst] at h
    exact congrArg Prod.snd h
  refine ⟨b, ?_⟩
  simp only [check_and_trigger, hst]
  cases b with
  | false => simp [hc']
  | true => simp [hc']

/-- A periodic run (no predicate, empty allow-list, `trigger_every > 0`)
fails exactly on the calls whose ordinals (counter values) are multiples of
the period. -/
theorem runSeq_trigger_general (c : FailureConfig)
    (hpred : c.predicate = none) (hallow : c.enabled_points = [])
    (hn : 0 < c.trigger_every)
    (calls : List (FailurePointId × Entropy))
    (hlen : c.counter + calls.length < w64) :
    runSeq c calls
      = (List.range' c.counter calls.length).map
          (fun i => decide (i % c.trigger_every = 0)) := by
  induction calls generalizing c with
  | nil => simp [runSeq]
  | cons call rest ih =>
    simp only [List.length_cons] at hlen
    rw [runSeq,
        should_trigger_periodic c call.1 call.2 (by simp [hpred]) (Or.inl hallow) hn,
        is_multiple_of_pos _ _ hn]
    have hc : (c.counter + 1) % w64 = c.counter + 1 := Nat.mod_eq_of_lt (by omega)
    rw [hc]
    have hlen' : ({ c with counter := c.counter + 1 } : FailureConfig).counter
        + rest.length < w64 := by
      show c.counter + 1 + rest.length < w64
      omega
    rw [ih { c with counter := c.counter + 1 } hpred hallow hn hlen']
    simp [List.range'_succ]

/-- A `check_and_trigger` run with gates open and positive probability: the
final call counter advances by the number of calls, and the failures counter
by the number of true verdicts. -/
theorem runCheck_counts (calls : List (FailurePoint × Entropy)) (c : FailureConfig)
    (hpred : c.predicate = none) (hallow : c.enabled_points = [])
    (hprob : 0 < c.probability)
    (hle : c.failures_triggered ≤ c.counter)
    (hlen : c.counter + calls.length < w64) :
    (runCheck c calls).2.counter = c.counter + calls.length
    ∧ (runCheck c calls).2.failures_triggered
        = c.failures_triggered + ((runCheck c calls).1.count true) := by
  induction calls generalizing c with
  | nil => simp [runCheck]
  | cons call rest ih =>
    simp only [List.length_cons] at hlen
    obtain ⟨b, hct⟩ := check_and_trigger_counts c call.1 call.2 hpred hallow hprob
    have hcc : (c.counter + 1) % w64 = c.counter + 1 := Nat.mod_eq_of_lt (by omega)
    have hff : (c.failures_triggered + 1) % w64 = c.failures_triggered + 1 :=
      Nat.mod_eq_of_lt (by omega)
    cases b with
    | false =>
      rw [if_neg (by simp)] at hct
      rw [runCheck, hct, hcc]
      have h2 := ih { c with counter := c.counter + 1 } hpred hallow hprob
        (by simpa using Nat.le_succ_of_le hle) (by simpa using by omega)
      refine ⟨?_, ?_⟩
      · rw [h2.1]; simp; omega
      · rw [h2.2]; simp
    | true =>
      rw [if_pos rfl] at hct
      rw [runCheck, hct, hcc, hff]
      have h2 := ih { c with counter := c.counter + 1,
                             failures_triggered := c.failures_triggered + 1 }
        hpred hallow hprob (by simpa using Nat.succ_le_succ hle)
        (by simpa using by omega)
      refine ⟨?_, ?_⟩
      · rw [h2.1]; simp; omega
      · rw [h2.2]; simp; omega

/-- When `trigger_every > 0` the verdict does not consult the probability,
the seed or the entropy: replacing all three arbitrarily leaves it unchanged. -/
theorem should_trigger_fst_trigger_pos (c : FailureConfig) (fp_id : FailurePointId)
    (e e' : Entropy) (p' s' : Nat) (htr : 0 < c.trigger_every) :
    (should_trigger c fp_id e).1
      = (should_trigger { c with probability := p', seed := s' } fp_id e').1 := by
  by_cases hpredB : ∃ p, c.predicate = some p ∧ p () = false
  · rw [should_trigger_gate_stopped c fp_id e (Or.inl hpredB),
        should_trigger_gate_stopped { c with probability := p', seed := s' } fp_id e'
          (Or.inl hpredB)]
  · have hpredpass : ∀ p, c.predicate = some p → p () = true := by
      intro p hp
      rcases Bool.eq_false_or_eq_true (p ()) with ht | hf
      · exact ht
      · exact absurd ⟨p, hp, hf⟩ hpredB
    by_cases hallowB : c.enabled_points ≠ [] ∧ c.enabled_points.contains fp_id = false
    · rw [should_trigger_gate_stopped c fp_id e (Or.inr hallowB),
          should_trigger_gate_stopped { c with probability := p', seed := s' } fp_id e'
            (Or.inr hallowB)]
    · have hallowpass : c.enabled_points = [] ∨ c.enabled_points.contains fp_id = true := by
        by_cases hne : c.enabled_points = []
        · exact Or.inl hne
        · rcases Bool.eq_false_or_eq_true (c.enabled_points.contains fp_id) with ht | hf
          · exact Or.inr ht
          · exact absurd ⟨hne, hf⟩ hallowB
      rw [should_trigger_periodic c fp_id e hpredpass hallowpass htr,
          should_trigger_periodic { c with probability := p', seed := s' } fp_id e'
            hpredpass hallowpass htr]

/-- Entropy-freedom of whole runs with a non-zero seed: only the id sequence
matters. -/
theorem runSeq_entropy_free (calls1 : List (FailurePointId × Entropy)) :
    ∀ (c : FailureConfig) (calls2 : List (FailurePointId × Entropy)),
      c.seed ≠ 0 → calls1.map Prod.fst = calls2.map Prod.fst →
      runSeq c calls1 = runSeq c calls2 := by
  induction calls1 with
  | nil =>
    intro c calls2 _ hids
    cases calls2 with
    | nil => rfl
    | cons _ _ => simp at hids
  | cons call1 rest1 ih =>
    intro c calls2 hseed hids
    cases calls2 with
    | nil => simp at hids
    | cons call2 rest2 =>
      simp only [List.map_cons, List.cons.injEq] at hids
      have hstep : should_trigger c call1.1 call1.2 = should_trigger c call2.1 call2.2 := by
        rw [hids.1]
        exact should_trigger_entropy_free c call2.1 call1.2 call2.2 hseed
      rw [runSeq, runSeq, hstep]
      rw [ih (should_trigger c call2.1 call2.2).2 rest2
            (by rw [should_trigger_seed]; exact hseed) hids.2]

/-- The verdict list of a `check_and_trigger` run has one entry per call. -/
theorem runCheck_length (calls : List (FailurePoint × Entropy)) (c : FailureConfig) :
    (runCheck c calls).1.length = calls.length := by
  induction calls generalizing c with
  | nil => rfl
  | cons call rest ih => simp [runCheck, ih]

/-! ### Concrete fixtures used by the witness instances -/

/-- A concrete call site. -/
def fpW : FailurePoint := ⟨⟨0⟩, "f", "lib.rs", 1, 1⟩

/-- A periodic configuration: `trigger_every(3)`, everything else default. -/
def cfgPeriodic3 : FailureConfig := ⟨[], 0, 0, 3, none, none, 0, 0, none⟩

/-- A seeded probabilistic configuration (probability 5/2^32, seed 1). -/
def cfgSeeded : FailureConfig := ⟨[], 5, 0, 0, none, none, 0, 1, none⟩

/-- A configuration whose gating predicate always returns false while every
other failure mode is switched on (probability u32::MAX, trigger_every 3, a
non-empty allow-list, a seed). -/
def cfgPredFalse : FailureConfig :=
  ⟨[⟨0⟩], w32 - 1, 0, 3, none, none, 0, 9, some (fun _ => false)⟩

/-- Both periodic and probabilistic modes set (trigger_every 2, probability
10, counter 4, seed 3). -/
def cfgBothModes : FailureConfig := ⟨[], 10, 4, 2, none, none, 0, 3, none⟩

/-- Probability u32::MAX with seed 42, gates open. -/
def cfgMaxProb42 : FailureConfig := ⟨[], w32 - 1, 0, 0, none, none, 0, 42, none⟩

/-! ### The claims -/

/-- Claim C1: for a configuration with `trigger_every = n > 0`, no predicate
and an empty allow-list, a run from a fresh counter yields a failing verdict
exactly on the calls with counter ordinals 0, n, 2n, ...: the i-th verdict is
true iff n divides i, whatever the call-site ids and entropy. -/
theorem claim_trigger_every_exact_period (c : FailureConfig)
    (hpred : c.predicate = none) (hallow : c.enabled_points = [])
    (hn : 0 < c.trigger_every) (hc0 : c.counter = 0)
    (calls : List (FailurePointId × Entropy)) (hlen : calls.length < w64) :
    runSeq c calls
      = (List.range calls.length).map (fun i => decide (i % c.trigger_every = 0)) := by
  rw [runSeq_trigger_general c hpred hallow hn calls (by omega), hc0,
      List.range_eq_range']

/-- Witness for claim C1: `trigger_every(3)` over 9 calls fails exactly at
ordinals 0, 3, 6. -/
theorem claim_trigger_every_exact_period_witness :
    runSeq cfgPeriodic3 (List.replicate 9 (⟨⟨0⟩, ⟨0, 0, 0⟩⟩ : FailurePointId × Entropy))
      = [true, false, false, true, false, false, true, false, false] := by
  rw [claim_trigger_every_exact_period cfgPeriodic3 rfl rfl (by decide) rfl _ (by decide)]
  decide

/-- Claim C2, counterexample: `with_probability(1.0)` sets the threshold to
`u32::MAX` and the comparison at lib.rs:452 is strict, so the verdict is not
always true: at seed 15162526295190847912, call-site id 0 and ordinal 0 the
high 32 bits of the avalanche-mixed hash equal `u32::MAX` and the evaluation does
not fail. -/
theorem claim_probability_one_counterexample :
    (should_trigger
        ((FailureConfig.new.with_probability_one).with_seed 15162526295190847912)
        ⟨0⟩ ⟨0, 0, 0⟩).1 = false := by
  decide

/-- Claim C2 (amended): with probability threshold `u32::MAX` (the value
`with_probability(1.0)` produces), no gating predicate, an empty allow-list
and `trigger_every = 0`, an evaluation fails for every seed, call-site id,
counter ordinal and entropy except exactly when the high 32 bits of the mixed
hash equal `u32::MAX`: the verdict is false iff `mixed_high = 2^32 - 1`. -/
theorem claim_probability_one_almost_always (c : FailureConfig)
    (fp_id : FailurePointId) (e : Entropy)
    (hpred : c.predicate = none) (hallow : c.enabled_points = [])
    (htr : c.trigger_every = 0) (hprob : c.probability = w32 - 1) :
    ((should_trigger c fp_id e).1 = false ↔ mixed_high c fp_id e = w32 - 1) := by
  rw [should_trigger_prob c fp_id e (by simp [hpred]) (Or.inl hallow) htr
        (by rw [hprob]; norm_num [w32])]
  have hlt := mixed_high_lt c fp_id e
  simp only [hprob, decide_eq_false_iff_not, Nat.not_lt]
  omega

/-- Witness for the amended claim C2, at seed 42, id 0, ordinal 0. -/
theorem claim_probability_one_almost_always_witness :
    ((should_trigger cfgMaxProb42 ⟨0⟩ ⟨0, 0, 0⟩).1 = false
      ↔ mixed_high cfgMaxProb42 ⟨0⟩ ⟨0, 0, 0⟩ = w32 - 1) :=
  claim_probability_one_almost_always cfgMaxProb42 ⟨0⟩ ⟨0, 0, 0⟩ rfl rfl rfl rfl

/-- Claim C3: with an explicit non-zero seed, the verdict sequence is a
deterministic function of the call-site id sequence, the starting counter and
the threshold (all carried by the starting configuration): two runs whose
calls present identical id sequences produce identical verdict sequences,
whatever run-time entropy each run observes. -/
theorem claim_seeded_runs_reproducible (c : FailureConfig) (hseed : c.seed ≠ 0)
    (calls1 calls2 : List (FailurePointId × Entropy))
    (hids : calls1.map Prod.fst = calls2.map Prod.fst) :
    runSeq c calls1 = runSeq c calls2 :=
  runSeq_entropy_free calls1 c calls2 hseed hids

/-- Witness for claim C3: same id on both runs, different entropy. -/
theorem claim_seeded_runs_reproducible_witness :
    runSeq cfgSeeded [(⟨7⟩, ⟨1, 2, 3⟩)] = runSeq cfgSeeded [(⟨7⟩, ⟨4, 5, 6⟩)] :=
  claim_seeded_runs_reproducible cfgSeeded (by decide) _ _ (by decide)

/-- Claim C4: a set gating predicate that returns false forces a false
verdict for every call site, whatever the probability threshold (u32::MAX
included), trigger_every, allow-list and seed settings. -/
theorem claim_predicate_false_blocks (c : FailureConfig) (fp_id : FailurePointId)
    (e : Entropy) (p : Unit → Bool)
    (hp : c.predicate = some p) (hfalse : p () = false) :
    (should_trigger c fp_id e).1 = false := by
  rw [should_trigger_gate_stopped c fp_id e (Or.inl ⟨p, hp, hfalse⟩)]

/-- Witness for claim C4: always-false predicate over a fully armed
configuration. -/
theorem claim_predicate_false_blocks_witness :
    (should_trigger cfgPredFalse ⟨0⟩ ⟨0, 0, 0⟩).1 = false :=
  claim_predicate_false_blocks cfgPredFalse ⟨0⟩ ⟨0, 0, 0⟩ (fun _ => false) rfl rfl

/-- Claim C5: `should_simulate_failure` consults the thread-local slot first
(evaluating its configuration and leaving the global slot untouched); it
falls back to the global slot exactly when the thread-local slot is empty;
and with both slots empty it returns false with the state unchanged — there
is no implicit default policy. -/
theorem claim_resolution_order (s : GlobalState) (fp : FailurePoint) (e : Entropy) :
    (∀ c, s.thread_config = some c →
        should_simulate_failure s fp e
          = ((check_and_trigger c fp e).1,
             { s with thread_config := some (check_and_trigger c fp e).2 }))
    ∧ (s.thread_config = none → ∀ c, s.global_config = some c →
        should_simulate_failure s fp e
          = ((check_and_trigger c fp e).1,
             { s with global_config := some (check_and_trigger c fp e).2 }))
    ∧ (s.thread_config = none → s.global_config = none →
        should_simulate_failure s fp e = (false, s)) := by
  refine ⟨?_, ?_, ?_⟩
  · intro c hc
    simp [should_simulate_failure, hc]
  · intro ht c hc
    simp [should_simulate_failure, ht, hc]
  · intro ht hg
    simp [should_simulate_failure, ht, hg]

/-- Witness for claim C5: both slots empty yields false and no state change;
an installed thread-local configuration is the one evaluated. -/
theorem claim_resolution_order_witness :
    should_simulate_failure ⟨none, none⟩ fpW ⟨0, 0, 0⟩ = (false, ⟨none, none⟩)
    ∧ should_simulate_failure ⟨some FailureConfig.new, none⟩ fpW ⟨0, 0, 0⟩
        = ((check_and_trigger FailureConfig.new fpW ⟨0, 0, 0⟩).1,
           ⟨some (check_and_trigger FailureConfig.new fpW ⟨0, 0, 0⟩).2, none⟩) :=
  ⟨(claim_resolution_order ⟨none, none⟩ fpW ⟨0, 0, 0⟩).2.2 rfl rfl,
   (claim_resolution_order ⟨some FailureConfig.new, none⟩ fpW ⟨0, 0, 0⟩).1
     FailureConfig.new rfl⟩

/-- Claim C6: when both `trigger_every > 0` and `probability > 0` are set,
periodic mode takes precedence: the verdict is unchanged under arbitrary
replacement of the probability, the seed and the entropy (the probabilistic
branch contributes nothing), and whenever the predicate/allow-list gates pass
it is exactly divisibility of the counter ordinal by `trigger_every`. -/
theorem claim_periodic_takes_precedence (c : FailureConfig) (fp_id : FailurePointId)
    (e e' : Entropy) (p' s' : Nat)
    (htr : 0 < c.trigger_every) (hprob : 0 < c.probability) :
    ((should_trigger c fp_id e).1
        = (should_trigger { c with probability := p', seed := s' } fp_id e').1)
    ∧ ((∀ p, c.predicate = some p → p () = true) →
       (c.enabled_points = [] ∨ c.enabled_points.contains fp_id = true) →
       (should_trigger c fp_id e).1 = decide (c.counter % c.trigger_every = 0)) := by
  constructor
  · exact should_trigger_fst_trigger_pos c fp_id e e' p' s' htr
  · intro hpred hallow
    rw [should_trigger_periodic c fp_id e hpred hallow htr,
        is_multiple_of_pos _ _ htr]

/-- Witness for claim C6: trigger_every 2 with probability 10 and seed 3, at
counter ordinal 4: zeroing probability and seed and changing the entropy
leaves the verdict, which is divisibility of 4 by 2. -/
theorem claim_periodic_takes_precedence_witness :
    ((should_trigger cfgBothModes ⟨1⟩ ⟨0, 0, 0⟩).1
        = (should_trigger { cfgBothModes with probability := 0, seed := 0 }
            ⟨1⟩ ⟨9, 9, 9⟩).1)
    ∧ ((should_trigger cfgBothModes ⟨1⟩ ⟨0, 0, 0⟩).1
        = decide (cfgBothModes.counter % cfgBothModes.trigger_every = 0)) := by
  have h := claim_periodic_takes_precedence cfgBothModes ⟨1⟩ ⟨0, 0, 0⟩ ⟨9, 9, 9⟩ 0 0
    (by decide) (by decide)
  exact ⟨h.1, h.2 (fun p hp => by simp [cfgBothModes] at hp) (Or.inl rfl)⟩

/-- Claim C7: from a fresh configuration with a positive probability
threshold, no predicate and an empty allow-list, a run of k calls through
`check_and_trigger` yields stats with `total_checks = k`, `total_failures`
equal to the number of true verdicts among the k, and
`total_failures ≤ total_checks`. -/
theorem claim_stats_after_run (c : FailureConfig)
    (calls : List (FailurePoint × Entropy))
    (hpred : c.predicate = none) (hallow : c.enabled_points = [])
    (hprob : 0 < c.probability)
    (hc0 : c.counter = 0) (hf0 : c.failures_triggered = 0)
    (hlen : calls.length < w64) :
    ((runCheck c calls).2.stats).total_checks = calls.length
    ∧ ((runCheck c calls).2.stats).total_failures = (runCheck c calls).1.count true
    ∧ ((runCheck c calls).2.stats).total_failures
        ≤ ((runCheck c calls).2.stats).total_checks := by
  have h := runCheck_counts calls c hpred hallow hprob (by omega) (by omega)
  have hcnt : (runCheck c calls).1.count true ≤ calls.length := by
    calc (runCheck c calls).1.count true ≤ (runCheck c calls).1.length :=
          List.count_le_length _ _
      _ = calls.length := runCheck_length calls c
  refine ⟨?_, ?_, ?_⟩
  · show (runCheck c calls).2.counter = calls.length
    rw [h.1, hc0, Nat.zero_add]
  · show (runCheck c calls).2.failures_triggered = (runCheck c calls).1.count true
    rw [h.2, hf0, Nat.zero_add]
  · show (runCheck c calls).2.failures_triggered ≤ (runCheck c calls).2.counter
    rw [h.1, h.2, hc0, hf0]
    simpa using hcnt

/-- Witness for claim C7: two calls on `enable_all`. -/
theorem claim_stats_after_run_witness :
    ((runCheck FailureConfig.enable_all [(fpW, ⟨0, 0, 0⟩), (fpW, ⟨0, 0, 0⟩)]).2.stats).total_checks = 2
    ∧ ((runCheck FailureConfig.enable_all [(fpW, ⟨0, 0, 0⟩), (fpW, ⟨0, 0, 0⟩)]).2.stats).total_failures
        = (runCheck FailureConfig.enable_all [(fpW, ⟨0, 0, 0⟩), (fpW, ⟨0, 0, 0⟩)]).1.count true
    ∧ ((runCheck FailureConfig.enable_all [(fpW, ⟨0, 0, 0⟩), (fpW, ⟨0, 0, 0⟩)]).2.stats).total_failures
        ≤ ((runCheck FailureConfig.enable_all [(fpW, ⟨0, 0, 0⟩), (fpW, ⟨0, 0, 0⟩)]).2.stats).total_checks :=
  claim_stats_after_run FailureConfig.enable_all _ rfl rfl (by decide) rfl rfl (by decide)

/-- Claim C8: an evaluation stopped by the gate — a set predicate returning
false, or a non-empty allow-list missing the id of the call site — yields a false
verdict and leaves the configuration unchanged, in particular the call
counter behind `total_checks` and the failures counter behind
`total_failures`. -/
theorem claim_gate_frame (c : FailureConfig) (fp : FailurePoint) (e : Entropy)
    (hgate : (∃ p, c.predicate = some p ∧ p () = false) ∨
             (c.enabled_points ≠ [] ∧ c.enabled_points.contains fp.id = false)) :
    check_and_trigger c fp e = (false, c) := by
  have hst := should_trigger_gate_stopped c fp.id e hgate
  simp [check_and_trigger, hst]

/-- Witness for claim C8: a false predicate over a fully armed configuration
leaves the configuration untouched. -/
theorem claim_gate_frame_witness :
    check_and_trigger cfgPredFalse fpW ⟨0, 0, 0⟩ = (false, cfgPredFalse) :=
  claim_gate_frame cfgPredFalse fpW ⟨0, 0, 0⟩ (Or.inl ⟨fun _ => false, rfl, rfl⟩)

/-- Claim C9: dropping the guard returned by a scoped install clears exactly
the slot the guard was created for (the other slot keeps its occupant; Rust
runs the drop exactly once on scope exit, normal or unwinding), and a
subsequent `should_simulate_failure` with no other configuration installed
returns false. -/
theorem claim_scoped_install_cleanup (s : GlobalState) (c : FailureConfig)
    (fp : FailurePoint) (e : Entropy) :
    ((with_config s c).1.drop (with_config s c).2 = { s with global_config := none })
    ∧ ((with_thread_config s c).1.drop (with_thread_config s c).2
        = { s with thread_config := none })
    ∧ (s.thread_config = none →
        should_simulate_failure ((with_config s c).1.drop (with_config s c).2) fp e
          = (false, { s with global_config := none }))
    ∧ (s.global_config = none →
        should_simulate_failure
            ((with_thread_config s c).1.drop (with_thread_config s c).2) fp e
          = (false, { s with thread_config := none })) := by
  refine ⟨rfl, rfl, ?_, ?_⟩
  · intro ht
    show should_simulate_failure { s with global_config := none } fp e = _
    simp [should_simulate_failure, ht]
  · intro hg
    show should_simulate_failure { s with thread_config := none } fp e = _
    simp [should_simulate_failure, hg]

/-- Witness for claim C9 at the empty state. -/
theorem claim_scoped_install_cleanup_witness :
    ((with_config ⟨none, none⟩ FailureConfig.new).1.drop
        (with_config ⟨none, none⟩ FailureConfig.new).2 = (⟨none, none⟩ : GlobalState))
    ∧ ((with_thread_config ⟨none, none⟩ FailureConfig.new).1.drop
        (with_thread_config ⟨none, none⟩ FailureConfig.new).2 = (⟨none, none⟩ : GlobalState))
    ∧ (should_simulate_failure
        ((with_config ⟨none, none⟩ FailureConfig.new).1.drop
          (with_config ⟨none, none⟩ FailureConfig.new).2) fpW ⟨0, 0, 0⟩
        = (false, (⟨none, none⟩ : GlobalState)))
    ∧ (should_simulate_failure
        ((with_thread_config ⟨none, none⟩ FailureConfig.new).1.drop
          (with_thread_config ⟨none, none⟩ FailureConfig.new).2) fpW ⟨0, 0, 0⟩
        = (false, (⟨none, none⟩ : GlobalState))) := by
  have h := claim_scoped_install_cleanup ⟨none, none⟩ FailureConfig.new fpW ⟨0, 0, 0⟩
  exact ⟨h.1, h.2.1, h.2.2.1 rfl, h.2.2.2 rfl⟩

/-- Claim C10: `get_failure_stats` returns none exactly when both slots are
empty; with a thread-local configuration installed it returns that
snapshot of that configuration, and otherwise the snapshot of the global
configuration. -/
theorem claim_get_failure_stats_resolution (s : GlobalState) :
    (get_failure_stats s = none ↔ s.thread_config = none ∧ s.global_config = none)
    ∧ (∀ c, s.thread_config = some c → get_failure_stats s = some c.stats)
    ∧ (s.thread_config = none → ∀ c, s.global_config = some c →
        get_failure_stats s = some c.stats) := by
  obtain ⟨t, g⟩ := s
  refine ⟨?_, ?_, ?_⟩
  · cases t <;> cases g <;> simp [get_failure_stats]
  · intro c hc
    cases t <;> simp_all [get_failure_stats]
  · intro ht c hc
    cases t <;> cases g <;> simp_all [get_failure_stats]

/-- Witness for claim C10: the thread slot wins, the global slot is the
fallback. -/
theorem claim_get_failure_stats_resolution_witness :
    get_failure_stats ⟨some FailureConfig.new, none⟩ = some FailureConfig.new.stats
    ∧ get_failure_stats ⟨none, some FailureConfig.enable_all⟩
        = some FailureConfig.enable_all.stats :=
  ⟨(claim_get_failure_stats_resolution ⟨some FailureConfig.new, none⟩).2.1
      FailureConfig.new rfl,
   (claim_get_failure_stats_resolution ⟨none, some FailureConfig.enable_all⟩).2.2
      rfl FailureConfig.enable_all rfl⟩

end Fallible
